import Mathlib

/-!
Verification of the reactive dependency-tracking and update-scheduling core
(scheduler, `Dep`, and `Observer` modules) against its specification.

The scheduler state (`queue`, `has`, `circular`, `waiting`, `flushing`,
`index`) and the operations `queueWatcher` / `flushSchedulerQueue` are
translated from the scheduler module; `Dep.notify`, `pushTarget`, `popTarget`
from the dependency module; `observe`, `defineReactive`'s setter, `set`, `del`
from the observer module.  Watchers are identified by their integer ids; a
watcher's `run()` side effects are modelled by a behaviour function giving the
ids it re-enqueues.  The flush loop, whose termination depends on watcher
behaviour, is modelled with explicit fuel (`none` = the loop is still running
after `fuel` iterations).
-/

namespace VueCore

/-- `MAX_UPDATE_COUNT` from the scheduler module. -/
def MAX_UPDATE_COUNT : Nat := 100

/-- Global scheduler state: pending queue (watcher ids), pending-membership
set `has`, the dev-mode `circular` counter (association list, newest first),
the `waiting` and `flushing` flags and the loop cursor `index`.  `runLog`
records the order in which watchers were executed, and `warned` records that
the circular-update diagnostic fired. -/
structure Sched where
  queue : List Nat
  has : List Nat
  circular : List (Nat × Nat)
  waiting : Bool
  flushing : Bool
  index : Nat
  runLog : List Nat
  warned : Bool
deriving DecidableEq, Repr

/-- The initial scheduler state (module load time). -/
def initSched : Sched :=
  { queue := []
    has := []
    circular := []
    waiting := false
    flushing := false
    index := 0
    runLog := []
    warned := false }

/-- The backward scan of `queueWatcher`'s flushing branch:
`let i = queue.length - 1; while (i > index && queue[i].id > watcher.id) i--;`
returns the final `i + 1` (the splice position before clamping). -/
def spliceScan (queue : List Nat) (index wid : Nat) : Nat → Nat
  | 0 => 1
  | i + 1 =>
    if i + 1 > index ∧ wid < queue.getD (i + 1) 0 then spliceScan queue index wid i
    else i + 2

/-- Insertion at position `n` (clamped to the length, as the JS `splice` is). -/
def spliceIn (l : List Nat) (n : Nat) (a : Nat) : List Nat :=
  l.take n ++ a :: l.drop n

/-- `queueWatcher(watcher)`: skip if the id is pending; otherwise mark it
pending and either append (not flushing) or splice it into the sorted
not-yet-executed tail (flushing); finally set `waiting` if unset (the actual
scheduling of `flushSchedulerQueue` on the task queue is external). -/
def queueWatcher (wid : Nat) (s : Sched) : Sched :=
  if wid ∈ s.has then s
  else
    let s1 : Sched := { s with has := wid :: s.has }
    let pos : Nat :=
      min (spliceScan s1.queue s1.index wid (s1.queue.length - 1)) s1.queue.length
    let s2 : Sched :=
      if s1.flushing then { s1 with queue := spliceIn s1.queue pos wid }
      else { s1 with queue := s1.queue ++ [wid] }
    if s2.waiting then s2 else { s2 with waiting := true }

/-- Dev-mode lookup in the `circular` counter. -/
def circGet (c : List (Nat × Nat)) (id : Nat) : Nat :=
  ((c.lookup id).getD 0)

/-- `watcher.run()` at id `wid`: the scheduler first clears the pending mark
(`has[id] = null`), then the run executes (logged in `runLog`) and its side
effects re-enter the scheduler through `queueWatcher` for each id in
`beh wid`. -/
def runWatcher (beh : Nat → List Nat) (wid : Nat) (s : Sched) : Sched :=
  (beh wid).foldl (fun st w => queueWatcher w st)
    { s with has := s.has.erase wid, runLog := s.runLog ++ [wid] }

/-- Outcome of one iteration of the flush loop. -/
inductive StepRes where
  | done (s : Sched)
  | broke (s : Sched)
  | cont (s : Sched)
deriving DecidableEq, Repr

/-- One iteration of the `for (index = 0; index < queue.length; index++)`
loop of `flushSchedulerQueue`: run the watcher at the cursor, then (dev build
only) count re-entries of the same id within this pass and break past
`MAX_UPDATE_COUNT`. -/
def flushStep (dev : Bool) (beh : Nat → List Nat) (s : Sched) : StepRes :=
  if s.index < s.queue.length then
    let wid := s.queue.getD s.index 0
    let s2 := runWatcher beh wid s
    if dev ∧ wid ∈ s2.has then
      let c := circGet s2.circular wid + 1
      let s3 : Sched := { s2 with circular := (wid, c) :: s2.circular }
      if c > MAX_UPDATE_COUNT then .broke { s3 with warned := true }
      else .cont { s3 with index := s3.index + 1 }
    else .cont { s2 with index := s2.index + 1 }
  else .done s

/-- The flush loop, with explicit fuel; `none` means the loop has not finished
within `fuel` iterations (in particular, a genuinely divergent loop yields
`none` for every fuel). -/
def flushLoop (dev : Bool) (beh : Nat → List Nat) : Nat → Sched → Option Sched
  | 0, _ => none
  | fuel + 1, s =>
    match flushStep dev beh s with
    | .done s' => some s'
    | .broke s' => some s'
    | .cont s' => flushLoop dev beh fuel s'

/-- `resetSchedulerState()`: clear queue, membership, cursor and flags (the
`circular` map only in the dev build). -/
def resetSchedulerState (dev : Bool) (s : Sched) : Sched :=
  { s with
    index := 0
    queue := []
    has := []
    circular := if dev then [] else s.circular
    waiting := false
    flushing := false }

/-- `flushSchedulerQueue()`: set `flushing`, sort the queue by id ascending,
run the loop from cursor 0, then reset the scheduler state (the post-pass
`updated`/`activated` hooks fire on copies and do not affect this state). -/
def flushSchedulerQueue (dev : Bool) (beh : Nat → List Nat) (fuel : Nat) (s : Sched) :
    Option Sched :=
  (flushLoop dev beh fuel
      { s with
        flushing := true
        queue := s.queue.insertionSort (· ≤ ·)
        index := 0 }).map
    (resetSchedulerState dev)

/-- Enqueue a list of watcher ids in order. -/
def enqueueAll (ids : List Nat) (s : Sched) : Sched :=
  ids.foldl (fun st w => queueWatcher w st) s

/-- Watchers with no side effects. -/
def noBeh : Nat → List Nat := fun _ => []

/-- Enqueue `ids` from the initial state, then flush (dev build, side-effect
free watchers, enough fuel for the whole queue). -/
def flushAfterEnqueue (ids : List Nat) : Option Sched :=
  flushSchedulerQueue true noBeh (ids.length + 1) (enqueueAll ids initSched)

/-- Execution log of a flush outcome. -/
def runLogOf (o : Option Sched) : List Nat :=
  (o.map Sched.runLog).getD []

/-- Warned flag of a flush outcome. -/
def warnedOf (o : Option Sched) : Bool :=
  (o.map Sched.warned).getD false

end VueCore

namespace VueCore

lemma waitingIf (s2 : Sched) :
    (if s2.waiting then s2 else { s2 with waiting := true }) = { s2 with waiting := true } := by
  by_cases h : s2.waiting
  · cases s2
    simp_all
  · simp [h]

lemma queueWatcher_eq (w : Nat) (s : Sched) :
    queueWatcher w s =
      if w ∈ s.has then s
      else if s.flushing then
        { s with
          has := w :: s.has
          queue := spliceIn s.queue
            (min (spliceScan s.queue s.index w (s.queue.length - 1)) s.queue.length) w
          waiting := true }
      else
        { s with
          has := w :: s.has
          queue := s.queue ++ [w]
          waiting := true } := by
  by_cases hw : w ∈ s.has
  · simp [queueWatcher, hw]
  · by_cases hf : s.flushing
    · simp [queueWatcher, hw, hf, waitingIf]
    · simp [queueWatcher, hw, hf, waitingIf]

end VueCore

namespace VueCore

/-- Invariant of the scheduler state between flushes. -/
def CleanInv (s : Sched) : Prop :=
  s.flushing = false ∧ s.queue.Nodup ∧ s.has.Nodup ∧ ∀ x, x ∈ s.queue ↔ x ∈ s.has

lemma queueWatcher_clean (w : Nat) (s : Sched) (h : CleanInv s) :
    CleanInv (queueWatcher w s) ∧
      (∀ x, x ∈ (queueWatcher w s).queue ↔ x ∈ s.queue ∨ x = w) ∧
      (queueWatcher w s).queue.length ≤ s.queue.length + 1 ∧
      (queueWatcher w s).runLog = s.runLog := by
  obtain ⟨hf, hq, hh, hiff⟩ := h
  rw [queueWatcher_eq]
  by_cases hw : w ∈ s.has
  · rw [if_pos hw]
    refine ⟨⟨hf, hq, hh, hiff⟩, ?_, Nat.le_succ _, rfl⟩
    intro x
    constructor
    · exact fun hx => Or.inl hx
    · rintro (hx | rfl)
      · exact hx
      · exact (hiff _).2 hw
  · have hwq : w ∉ s.queue := fun hx => hw ((hiff w).1 hx)
    rw [if_neg hw, hf, if_neg Bool.false_ne_true]
    refine ⟨⟨rfl, ?_, List.nodup_cons.2 ⟨hw, hh⟩, ?_⟩, ?_, ?_, rfl⟩
    · simpa [List.nodup_append] using ⟨hq, hwq⟩
    · intro x
      simp only [List.mem_append, List.mem_cons, List.mem_singleton,
        List.not_mem_nil, or_false, hiff x]
      exact or_comm
    · intro x
      simp [List.mem_append]
    · simp


lemma enqueueAll_clean (ids : List Nat) (s : Sched) (h : CleanInv s) :
    CleanInv (enqueueAll ids s) ∧
      (∀ x, x ∈ (enqueueAll ids s).queue ↔ x ∈ s.queue ∨ x ∈ ids) ∧
      (enqueueAll ids s).queue.length ≤ s.queue.length + ids.length ∧
      (enqueueAll ids s).runLog = s.runLog := by
  induction ids generalizing s with
  | nil =>
    refine ⟨h, ?_, Nat.le_refl _, rfl⟩
    intro x
    simp [enqueueAll]
  | cons a as ih =>
    obtain ⟨h1, h2, h3, h4⟩ := queueWatcher_clean a s h
    obtain ⟨g1, g2, g3, g4⟩ := ih (queueWatcher a s) h1
    have heq : enqueueAll (a :: as) s = enqueueAll as (queueWatcher a s) := rfl
    rw [heq]
    refine ⟨g1, ?_, ?_, g4.trans h4⟩
    · intro x
      rw [g2 x, h2 x]
      simp [or_assoc]
    · calc (enqueueAll as (queueWatcher a s)).queue.length
          ≤ (queueWatcher a s).queue.length + as.length := g3
        _ ≤ s.queue.length + 1 + as.length := Nat.add_le_add_right h3 _
        _ = s.queue.length + (a :: as).length := by simp [Nat.add_assoc, Nat.add_comm 1]

lemma getD_eq_getElem_of_lt (l : List Nat) (n : Nat) (h : n < l.length) :
    l.getD n 0 = l[n] := by
  simp [List.getD_eq_getElem?_getD, List.getElem?_eq_getElem h]

lemma flushLoop_noBeh (dev : Bool) :
    ∀ (fuel : Nat) (s : Sched), s.has.Nodup →
      s.queue.length - s.index < fuel →
      ∃ s', flushLoop dev noBeh fuel s = some s' ∧ s'.queue = s.queue ∧
        s'.runLog = s.runLog ++ s.queue.drop s.index := by
  intro fuel
  induction fuel with
  | zero => intro s _ hlt; omega
  | succ fuel ih =>
    intro s hnd hlt
    by_cases hidx : s.index < s.queue.length
    · have hwid : s.queue.getD s.index 0 ∈ s.has.erase (s.queue.getD s.index 0) ↔ False := by
        simp [List.Nodup.mem_erase_iff hnd]
      have hstep : flushStep dev noBeh s =
          .cont { s with
                  has := s.has.erase (s.queue.getD s.index 0)
                  runLog := s.runLog ++ [s.queue.getD s.index 0]
                  index := s.index + 1 } := by
        simp only [flushStep, if_pos hidx, runWatcher, noBeh, List.foldl_nil]
        rw [if_neg]
        simp only [not_and]
        intro _
        simp [List.Nodup.mem_erase_iff hnd]
      rw [show flushLoop dev noBeh (fuel + 1) s =
            (match flushStep dev noBeh s with
            | .done s' => some s'
            | .broke s' => some s'
            | .cont s' => flushLoop dev noBeh fuel s') from rfl, hstep]
      obtain ⟨s', he, hq, hr⟩ :=
        ih { s with
             has := s.has.erase (s.queue.getD s.index 0)
             runLog := s.runLog ++ [s.queue.getD s.index 0]
             index := s.index + 1 }
          (List.Nodup.erase _ hnd) (by simp only []; omega)
      refine ⟨s', he, hq, ?_⟩
      rw [hr]
      simp only []
      rw [List.append_assoc]
      congr 1
      rw [getD_eq_getElem_of_lt _ _ hidx, List.drop_eq_getElem_cons hidx]
      simp
    · have hstep : flushStep dev noBeh s = .done s := by
        simp [flushStep, hidx]
      rw [show flushLoop dev noBeh (fuel + 1) s =
            (match flushStep dev noBeh s with
            | .done s' => some s'
            | .broke s' => some s'
            | .cont s' => flushLoop dev noBeh fuel s') from rfl, hstep]
      refine ⟨s, rfl, rfl, ?_⟩
      rw [List.drop_eq_nil_of_le (Nat.le_of_not_lt hidx)]
      simp


lemma sorted_lt_of_le_nodup (l : List Nat) (h1 : l.Sorted (· ≤ ·)) (h2 : l.Nodup) :
    l.Sorted (· < ·) :=
  (List.Pairwise.and h1 h2).imp (fun hab => lt_of_le_of_ne hab.1 hab.2)

set_option maxRecDepth 4000

/-- C2: watchers enqueued before a flush begins are executed by
`flushSchedulerQueue` in strictly ascending id order, whatever the enqueue
order; exactly the enqueued ids run, and enqueuing 3, 1, 2 runs 1, 2, 3. -/
theorem C2_flush_runs_in_ascending_id_order (ids : List Nat) :
    (runLogOf (flushAfterEnqueue ids)).Sorted (· < ·) ∧
      (∀ x, x ∈ runLogOf (flushAfterEnqueue ids) ↔ x ∈ ids) ∧
      runLogOf (flushAfterEnqueue [3, 1, 2]) = [1, 2, 3] := by
  have hinit : CleanInv initSched := by
    refine ⟨rfl, List.nodup_nil, List.nodup_nil, ?_⟩
    intro x
    simp [initSched]
  obtain ⟨⟨_, hnq, hnh, _⟩, hmem, hlen, hrun⟩ := enqueueAll_clean ids initSched hinit
  set s1 := enqueueAll ids initSched with hs1
  have hperm := List.perm_insertionSort (· ≤ ·) s1.queue
  obtain ⟨s', he, hq, hr⟩ :=
    flushLoop_noBeh true (ids.length + 1)
      { s1 with flushing := true, queue := s1.queue.insertionSort (· ≤ ·), index := 0 }
      hnh (by simpa using Nat.lt_succ_of_le (hperm.length_eq.le.trans (by simpa [initSched] using hlen)))
  have hres : flushAfterEnqueue ids = some (resetSchedulerState true s') := by
    rw [flushAfterEnqueue, flushSchedulerQueue, he]
    rfl
  have hlog : runLogOf (flushAfterEnqueue ids) = s1.queue.insertionSort (· ≤ ·) := by
    rw [hres]
    show s'.runLog = _
    rw [hr]
    simp only [List.drop_zero]
    rw [hrun]
    simp [initSched]
  refine ⟨?_, ?_, by decide⟩
  · rw [hlog]
    exact sorted_lt_of_le_nodup _ (List.sorted_insertionSort _ _) (hperm.nodup_iff.2 hnq)
  · intro x
    rw [hlog]
    rw [hperm.mem_iff, hmem x]
    simp [initSched]


lemma spliceScan_all_gt (q : List Nat) (index wid : Nat) :
    ∀ i, index ≤ i → (∀ j, index < j → j ≤ i → wid < q.getD j 0) →
      spliceScan q index wid i = index + 1 := by
  intro i
  induction i with
  | zero =>
    intro h1 _
    have h0 : index = 0 := Nat.le_zero.1 h1
    rw [h0]
    rfl
  | succ i ih =>
    intro h1 h2
    rcases Nat.lt_or_ge index (i + 1) with hlt | hge
    · rw [spliceScan, if_pos ⟨hlt, h2 (i + 1) hlt (Nat.le_refl _)⟩]
      exact ih (Nat.lt_succ_iff.1 hlt) (fun j ha hb => h2 j ha (Nat.le_succ_of_le hb))
    · have heq : index = i + 1 := Nat.le_antisymm h1 hge
      rw [spliceScan, if_neg]
      · omega
      · simp [heq]

lemma spliceScan_last_le (q : List Nat) (index wid : Nat) (h1 : 1 ≤ q.length)
    (h2 : q.getD (q.length - 1) 0 ≤ wid) :
    spliceScan q index wid (q.length - 1) = q.length := by
  rcases hn : q.length - 1 with _ | i
  · have hq1 : q.length = 1 := by omega
    rw [hq1]
    rfl
  · rw [hn] at h2
    rw [spliceScan, if_neg]
    · omega
    · rintro ⟨_, hgt⟩
      exact absurd hgt (not_lt.2 h2)

/-- Watcher 2 re-enqueues watcher 1 while the flush cursor is on id 2. -/
def behReenq1 : Nat → List Nat := fun w => if w = 2 then [1] else []

/-- Watcher 2 enqueues watcher 5 while the flush cursor is on id 2. -/
def behEnq5 : Nat → List Nat := fun w => if w = 2 then [5] else []

/-- The flush of queue {2, 3} in which running id 2 re-enqueues id 1. -/
def flushReenq1 : Option Sched :=
  flushSchedulerQueue true behReenq1 10 (enqueueAll [2, 3] initSched)

/-- The flush of queue {2, 3} in which running id 2 enqueues id 5. -/
def flushEnq5 : Option Sched :=
  flushSchedulerQueue true behEnq5 10 (enqueueAll [2, 3] initSched)

/-- C1 counterexample: with the cursor on id 2, re-enqueuing id 1 does NOT
defer it to the next flush pass — it is spliced in right after the cursor and
runs immediately next, so the current pass executes 2, 1, 3 (the claim says
the pass would execute only 2, 3, with 1 left for the next pass). -/
theorem C1_counterexample_smaller_id_runs_in_current_pass :
    runLogOf flushReenq1 = [2, 1, 3] ∧ 1 ∈ runLogOf flushReenq1 := by
  constructor
  · decide
  · decide

/-- C1 amended: during a flush, enqueuing a non-pending watcher whose id is
below every id in the not-yet-executed tail splices it in directly after the
cursor (so it runs next, still in the current pass); one whose id is at least
every id in the tail is appended to the tail.  Concretely, with the cursor on
id 2, re-enqueued id 1 makes the pass run 2, 1, 3 and enqueued id 5 makes the
pass run 2, 3, 5 — both run before the pass ends. -/
theorem C1_amended_reentrant_insertion (s : Sched) (wid : Nat)
    (hn : wid ∉ s.has) (hf : s.flushing = true) (hidx : s.index < s.queue.length) :
    ((∀ j, s.index < j → j < s.queue.length → wid < s.queue.getD j 0) →
        (queueWatcher wid s).queue =
          s.queue.take (s.index + 1) ++ wid :: s.queue.drop (s.index + 1)) ∧
      (s.queue.getD (s.queue.length - 1) 0 < wid →
        (queueWatcher wid s).queue = s.queue ++ [wid]) ∧
      runLogOf flushReenq1 = [2, 1, 3] ∧ runLogOf flushEnq5 = [2, 3, 5] := by
  rw [queueWatcher_eq, if_neg hn, hf, if_pos rfl]
  refine ⟨?_, ?_, by decide, by decide⟩
  · intro hall
    have hscan : spliceScan s.queue s.index wid (s.queue.length - 1) = s.index + 1 := by
      apply spliceScan_all_gt
      · omega
      · intro j ha hb
        exact hall j ha (by omega)
    show spliceIn s.queue (min (spliceScan s.queue s.index wid (s.queue.length - 1))
        s.queue.length) wid = _
    rw [hscan, Nat.min_eq_left (by omega)]
    rfl
  · intro hlast
    have hscan : spliceScan s.queue s.index wid (s.queue.length - 1) = s.queue.length :=
      spliceScan_last_le _ _ _ (by omega) (Nat.le_of_lt hlast)
    show spliceIn s.queue (min (spliceScan s.queue s.index wid (s.queue.length - 1))
        s.queue.length) wid = _
    rw [hscan, Nat.min_self]
    simp [spliceIn]

/-- A mid-flush scheduler state: sorted queue [2, 3], cursor on id 2. -/
def midFlushState : Sched :=
  { queue := [2, 3]
    has := [3]
    circular := []
    waiting := true
    flushing := true
    index := 0
    runLog := []
    warned := false }

theorem C1_amended_witness :
    (queueWatcher 1 midFlushState).queue = [2, 1, 3] ∧
      (queueWatcher 5 midFlushState).queue = [2, 3, 5] := by
  have h1 := (C1_amended_reentrant_insertion midFlushState 1 (by decide) (by decide)
    (by decide)).1 (by
      intro j hj1 hj2
      have hj : j = 1 := by
        simp [midFlushState] at hj1 hj2
        omega
      subst hj
      decide)
  have h5 := (C1_amended_reentrant_insertion midFlushState 5 (by decide) (by decide)
    (by decide)).2.1 (by decide)
  exact ⟨h1, h5⟩


/-- A watcher (id 1) that re-invalidates itself every time it runs. -/
def behSelf : Nat → List Nat := fun w => if w = 1 then [1] else []

lemma flushStep_behSelf (q : List Nat) (circ : List (Nat × Nat)) (wait : Bool)
    (idx : Nat) (log : List Nat) (warn : Bool)
    (hlen : q.length = idx + 1) (hall : ∀ x ∈ q, x = 1) :
    flushStep false behSelf ⟨q, [1], circ, wait, true, idx, log, warn⟩ =
      .cont ⟨q ++ [1], [1], circ, true, true, idx + 1, log ++ [1], warn⟩ := by
  have hidx : idx < q.length := by omega
  have hwid : q.getD idx 0 = 1 := by
    rw [getD_eq_getElem_of_lt _ _ hidx]
    exact hall _ (List.getElem_mem hidx)
  have hscan : spliceScan q idx 1 (q.length - 1) = idx + 1 := by
    have he : q.length - 1 = idx := by omega
    rw [he]
    exact spliceScan_all_gt _ _ _ _ (Nat.le_refl _)
      (fun j ha hb => absurd (ha.trans_le hb) (lt_irrefl _))
  have hsp : spliceIn q (idx + 1) 1 = q ++ [1] := by
    rw [spliceIn, List.take_of_length_le (by omega), List.drop_eq_nil_of_le (by omega)]
  have hwid2 : q[idx] = 1 := by
    rw [← getD_eq_getElem_of_lt _ _ hidx]
    exact hwid
  have hmin : min (spliceScan q idx 1 (q.length - 1)) q.length = idx + 1 := by
    rw [hscan]
    exact min_eq_left (by omega)
  simp [flushStep, runWatcher, behSelf, queueWatcher_eq, hwid2, hmin, hsp, hidx]

lemma flushLoop_behSelf_diverges :
    ∀ (fuel : Nat) (q : List Nat) (circ : List (Nat × Nat)) (wait : Bool)
      (idx : Nat) (log : List Nat) (warn : Bool),
      q.length = idx + 1 → (∀ x ∈ q, x = 1) →
      flushLoop false behSelf fuel ⟨q, [1], circ, wait, true, idx, log, warn⟩ = none := by
  intro fuel
  induction fuel with
  | zero =>
    intro q circ wait idx log warn _ _
    rfl
  | succ fuel ih =>
    intro q circ wait idx log warn hlen hall
    rw [show flushLoop false behSelf (fuel + 1) ⟨q, [1], circ, wait, true, idx, log, warn⟩ =
          (match flushStep false behSelf ⟨q, [1], circ, wait, true, idx, log, warn⟩ with
          | .done s' => some s'
          | .broke s' => some s'
          | .cont s' => flushLoop false behSelf fuel s') from rfl,
      flushStep_behSelf q circ wait idx log warn hlen hall]
    apply ih
    · simp only [List.length_append, List.length_singleton]
      omega
    · intro x hx
      rcases List.mem_append.1 hx with hx | hx
      · exact hall x hx
      · simpa using hx

set_option maxRecDepth 10000

/-- C6: a watcher that re-invalidates itself on every run makes the dev-build
flush pass abort with the circular-update diagnostic after 101 executions
(the 101st re-entry exceeds `MAX_UPDATE_COUNT = 100`), while the production
build, whose guard is compiled out, never finishes the pass (the loop
consumes any amount of fuel). -/
theorem C6_circular_update_guard_aborts_dev_pass :
    warnedOf (flushSchedulerQueue true behSelf 200 (enqueueAll [1] initSched)) = true ∧
      (runLogOf (flushSchedulerQueue true behSelf 200 (enqueueAll [1] initSched))).length =
        MAX_UPDATE_COUNT + 1 ∧
      ∀ fuel, flushSchedulerQueue false behSelf fuel (enqueueAll [1] initSched) = none := by
  refine ⟨by decide, by decide, ?_⟩
  intro fuel
  show (flushLoop false behSelf fuel ⟨[1], [1], [], true, true, 0, [], false⟩).map
    (resetSchedulerState false) = none
  rw [flushLoop_behSelf_diverges fuel [1] [] true 0 [] false rfl (by decide)]
  rfl


/-- State of one `Dep`: its live subscriber list, plus a log of the
`update()` invocations made on subscribers (watchers are their ids). -/
structure DepState where
  subs : List Nat
  updateLog : List Nat
deriving DecidableEq, Repr

/-- `dep.addSub(sub)`: push onto the live subscriber list. -/
def Dep.addSub (w : Nat) (s : DepState) : DepState :=
  { s with subs := s.subs ++ [w] }

/-- `dep.removeSub(sub)`: remove the first occurrence from the live list. -/
def Dep.removeSub (w : Nat) (s : DepState) : DepState :=
  { s with subs := s.subs.erase w }

/-- The loop of `notify()` over the snapshot `subs = this.subs.slice()`:
`upd i st` is the effect of `subs[i].update()`, which may arbitrarily mutate
the live subscriber list. -/
def notifyGo (upd : Nat → DepState → DepState) : List Nat → DepState → DepState
  | [], st => st
  | x :: xs, st => notifyGo upd xs (upd x st)

/-- `dep.notify()`: snapshot the current subscriber list, then call
`update()` on each snapshot entry in order. -/
def Dep.notify (upd : Nat → DepState → DepState) (s : DepState) : DepState :=
  notifyGo upd s.subs s

lemma notifyGo_log (upd : Nat → DepState → DepState)
    (hupd : ∀ i st, (upd i st).updateLog = st.updateLog ++ [i]) :
    ∀ (snapshot : List Nat) (st : DepState),
      (notifyGo upd snapshot st).updateLog = st.updateLog ++ snapshot := by
  intro snapshot
  induction snapshot with
  | nil =>
    intro st
    simp [notifyGo]
  | cons x xs ih =>
    intro st
    rw [notifyGo, ih (upd x st), hupd x st]
    simp

/-- C7: `notify()` invokes `update()` on exactly the subscribers present at
the moment of the call, in insertion order — whatever mutations of the live
subscriber list the updates perform, the invocation sequence is the snapshot
taken at entry. -/
theorem C7_notify_uses_snapshot_of_subscribers (upd : Nat → DepState → DepState)
    (s : DepState)
    (hupd : ∀ i st, (upd i st).updateLog = st.updateLog ++ [i]) :
    (Dep.notify upd s).updateLog = s.updateLog ++ s.subs :=
  notifyGo_log upd hupd s.subs s

/-- An update behaviour that unsubscribes the running watcher and subscribes
a fresh watcher 99 — mutating the live list mid-notify. -/
def updMut (i : Nat) (st : DepState) : DepState :=
  Dep.addSub 99 (Dep.removeSub i { st with updateLog := st.updateLog ++ [i] })

theorem C7_notify_uses_snapshot_witness :
    (Dep.notify updMut { subs := [4, 7], updateLog := [] }).updateLog = [4, 7] := by
  have h := C7_notify_uses_snapshot_of_subscribers updMut
    { subs := [4, 7], updateLog := [] } (fun i st => rfl)
  simpa using h

/-- The global active-computation pointer `Dep.target` together with
`targetStack` (top of the stack at the end of the list, as in the source
array's push/pop). -/
structure TargetState where
  target : Option Nat
  targetStack : List Nat
deriving DecidableEq, Repr

/-- `pushTarget(w)`: save the current target on the stack (only when one is
set) and make `w` the active computation. -/
def pushTarget (w : Nat) (s : TargetState) : TargetState :=
  { target := some w
    targetStack :=
      match s.target with
      | some t => s.targetStack ++ [t]
      | none => s.targetStack }

/-- `popTarget()`: restore the previous target from the stack (an empty stack
restores "no active computation", as the source array's `pop()` yields
undefined). -/
def popTarget (s : TargetState) : TargetState :=
  { target := s.targetStack.getLast?
    targetStack := s.targetStack.dropLast }

/-- States reachable by push/pop discipline: no saved outer computation
exists when no computation is active. -/
def TargetWF (s : TargetState) : Prop := s.target = none → s.targetStack = []

/-- C9: the active-computation pointer is stack-disciplined — `pushTarget w`
makes `w` the active target, and a following `popTarget` restores both the
target (the prior value `t`) and the stack exactly; well-formedness is
preserved by both operations. -/
theorem C9_push_pop_target_round_trip (w : Nat) (s : TargetState) (hwf : TargetWF s) :
    (pushTarget w s).target = some w ∧
      popTarget (pushTarget w s) = s ∧
      TargetWF (pushTarget w s) ∧
      TargetWF (popTarget (pushTarget w s)) := by
  obtain ⟨tgt, stk⟩ := s
  refine ⟨rfl, ?_, fun h => by exact absurd h (by simp [pushTarget]), ?_⟩
  · cases tgt with
    | none =>
      have hst : stk = [] := hwf rfl
      subst hst
      rfl
    | some t =>
      simp [pushTarget, popTarget]
  · intro h
    cases tgt with
    | none =>
      have hst : stk = [] := hwf rfl
      subst hst
      rfl
    | some t =>
      simp [pushTarget, popTarget] at h

theorem C9_push_pop_target_witness :
    (pushTarget 5 { target := some 2, targetStack := [1] }).target = some 5 ∧
      popTarget (pushTarget 5 { target := some 2, targetStack := [1] }) =
        { target := some 2, targetStack := [1] } := by
  have h := C9_push_pop_target_round_trip 5 { target := some 2, targetStack := [1] }
    (fun hn => by simp at hn)
  exact ⟨h.1, h.2.1⟩


/-- JS runtime values as seen by the observer module: primitives, the NaN
value (distinguished because it is not strictly equal to itself), and
references to heap objects. -/
inductive JSVal where
  | undef
  | jsNull
  | bool (b : Bool)
  | num (n : Int)
  | nan
  | str (s : String)
  | ref (o : Nat)
deriving DecidableEq, Repr

/-- JS strict equality: structural on primitives, reference identity on
objects, except that NaN is equal to nothing, itself included. -/
def seq : JSVal → JSVal → Bool
  | .nan, _ => false
  | _, .nan => false
  | a, b => a == b

/-- The closure state of one reactive field installed by `defineReactive`
(no pre-existing getter/setter on the key): the stored slot `val`, the
retained child Observer reference `childOb`, and a count of the field
Dependency's `notify()` calls. -/
structure FieldState where
  val : JSVal
  childOb : Option Nat
  notifies : Nat
deriving DecidableEq, Repr

/-- The `reactiveSetter` installed by `defineReactive`: skip the write when
the new value is strictly equal to the current one, or when both are NaN-like
(each unequal to itself); otherwise store the value, re-observe it (`obs`
abstracts the surrounding `observe`) and notify the field Dependency.  The
dev-only `customSetter` diagnostic hook has no effect on this state. -/
def reactiveSetter (obs : JSVal → Option Nat) (newVal : JSVal) (s : FieldState) :
    FieldState :=
  if seq newVal s.val || (!seq newVal newVal && !seq s.val s.val) then s
  else { val := newVal, childOb := obs newVal, notifies := s.notifies + 1 }

/-- Kinds of heap objects relevant to `observe`: plain records, arrays,
VNode instances, and other (non-plain, non-array) objects. -/
inductive OKind where
  | plain
  | arr
  | vnode
  | otherObj
deriving DecidableEq, Repr

/-- A heap object: its kind, `Object.isExtensible`, the `_isVue` marker, own
enumerable string-keyed fields (records), elements (arrays), and the hidden
non-enumerable `__ob__` back-reference to an Observer. -/
structure JObj where
  kind : OKind
  extensible : Bool
  isVue : Bool
  fields : List (String × JSVal)
  elems : List JSVal
  ob : Option Nat
deriving DecidableEq, Repr

/-- An Observer record: the owned value, the id of its root Dependency, and
`vmCount` (how many vms have the value as root $data). -/
structure Obs where
  value : Nat
  depId : Nat
  vmCount : Nat
deriving DecidableEq, Repr

/-- The object/observer heap plus module-level observer state: `nextObs` and
`nextDep` are the allocation counters for Observers and Dependencies,
`notifyLog` records root-Dependency notifications in order, `warnCount`
counts `warn()` calls, `shouldConvert` is `observerState.shouldConvert`,
`ssr` is `isServerRendering()` and `dev` distinguishes the dev build. -/
structure Heap where
  objs : List (Nat × JObj)
  obss : List (Nat × Obs)
  nextObs : Nat
  nextDep : Nat
  notifyLog : List Nat
  warnCount : Nat
  shouldConvert : Bool
  ssr : Bool
  dev : Bool
deriving DecidableEq, Repr

/-- In-place association-list update, preserving entry order. -/
def updA {α : Type} (l : List (Nat × α)) (k : Nat) (v : α) : List (Nat × α) :=
  l.map (fun p => if p.1 = k then (k, v) else p)

/-- `warn(...)` guarded by the dev-build check. -/
def warnH (h : Heap) : Heap :=
  if h.dev then { h with warnCount := h.warnCount + 1 } else h

/-- The `vmCount` of observer `k`. -/
def vmCountOf (h : Heap) (k : Nat) : Nat :=
  ((h.obss.lookup k).map Obs.vmCount).getD 0

/-- `ob.vmCount++`. -/
def bumpVm (k : Nat) (h : Heap) : Heap :=
  match h.obss.lookup k with
  | some obs => { h with obss := updA h.obss k { obs with vmCount := obs.vmCount + 1 } }
  | none => h

/-- The `new Observer(value)` constructor: allocate the Observer and its root
Dependency, attach the hidden back-reference, then convert children —
`observeArray` for arrays (observe every element), `walk` for records (each
field gets its own Dependency and its value is observed, as `defineReactive`
does).  `walkChild` is the recursive `observe` at one less fuel. -/
def observeNew (walkChild : JSVal → Heap → Heap) (oid : Nat) (o : JObj) (h : Heap) :
    Nat × Heap :=
  let h1 : Heap :=
    { h with
      nextObs := h.nextObs + 1
      nextDep := h.nextDep + 1
      obss := h.obss ++ [(h.nextObs, { value := oid, depId := h.nextDep, vmCount := 0 })]
      objs := updA h.objs oid { o with ob := some h.nextObs } }
  if o.kind = .arr then
    (h.nextObs, o.elems.foldl (fun hh e => walkChild e hh) h1)
  else
    (h.nextObs,
      o.fields.foldl (fun hh kv => walkChild kv.2 { hh with nextDep := hh.nextDep + 1 }) h1)

/-- `observe(value, asRootData)`, with explicit fuel bounding the conversion
recursion depth: nothing for non-objects and VNode instances; the existing
Observer if the value already carries one; a new Observer when conversion is
enabled, the environment is not server rendering, the value is a plain
object or an array, extensible, and not a framework instance; for root data
the resulting Observer's `vmCount` is bumped. -/
def observe : Nat → JSVal → Bool → Heap → Option Nat × Heap
  | 0, _, _, h => (none, h)
  | fuel + 1, v, asRootData, h =>
    match v with
    | .ref oid =>
      match h.objs.lookup oid with
      | some o =>
        if o.kind = .vnode then (none, h)
        else
          match o.ob with
          | some k => (some k, if asRootData then bumpVm k h else h)
          | none =>
            if h.shouldConvert && !h.ssr && (o.kind == .arr || o.kind == .plain) &&
                o.extensible && !o.isVue then
              let p := observeNew (fun v2 hh => (observe fuel v2 false hh).2) oid o h
              (some p.1, if asRootData then bumpVm p.1 p.2 else p.2)
            else (none, h)
      | none => (none, h)
    | _ => (none, h)

/-- `isValidArrayIndex`: non-negative integer keys, numeric strings
included. -/
def keyToNat? : JSVal → Option Nat
  | .num n => if 0 ≤ n then some n.toNat else none
  | .str s => s.toNat?
  | _ => none

/-- Whether a key is a valid array index. -/
def isValidArrayIndex (k : JSVal) : Bool := (keyToNat? k).isSome

/-- `String(key)`, for record field lookup. -/
def keyStr : JSVal → String
  | .str s => s
  | .num n => toString n
  | .nan => "NaN"
  | .bool b => if b then "true" else "false"
  | .undef => "undefined"
  | .jsNull => "null"
  | .ref _ => "object"

/-- `hasOwn(target, key)`. -/
def hasOwnObj (o : JObj) (k : JSVal) : Bool :=
  if o.kind = .arr then
    match keyToNat? k with
    | some i => decide (i < o.elems.length)
    | none => false
  else
    (o.fields.lookup (keyStr k)).isSome

/-- `target.length = Math.max(target.length, key)`: growing an array's
length pads it with undefined slots. -/
def setLength (oid : Nat) (n : Nat) (h : Heap) : Heap :=
  match h.objs.lookup oid with
  | some o =>
    let o2 : JObj := { o with elems := o.elems ++ List.replicate (n - o.elems.length) .undef }
    { h with objs := updA h.objs oid o2 }
  | none => h

/-- `ob.dep.notify()`. -/
def notifyObsDep (k : Nat) (h : Heap) : Heap :=
  match h.obss.lookup k with
  | some obs => { h with notifyLog := h.notifyLog ++ [obs.depId] }
  | none => h

/-- Modelled from the spec: the array-method wrapper module (`arrayMethods`,
the sanctioned mutation path of §4.1) is not among the provided observer and
scheduler sources; per the spec, its wrapped `splice` (1) performs the
original structural mutation, (2) observes the newly inserted elements and
(3) notifies the collection Observer's root Dependency. -/
def wrappedSplice (fuel : Nat) (oid start deleteCount : Nat) (inserted : List JSVal)
    (h : Heap) : Heap :=
  match h.objs.lookup oid with
  | some o =>
    let o2 : JObj :=
      { o with elems := o.elems.take start ++ inserted ++ o.elems.drop (start + deleteCount) }
    let h1 : Heap := { h with objs := updA h.objs oid o2 }
    let h2 := inserted.foldl (fun hh e => (observe fuel e false hh).2) h1
    match o.ob with
    | some k => notifyObsDep k h2
    | none => h2
  | none => h

/-- A plain own-key write `target[key] = val` on a record (for a reactive
field the accessor semantics are modelled separately by `reactiveSetter`). -/
def rawWrite (oid : Nat) (key val : JSVal) (h : Heap) : Heap :=
  match h.objs.lookup oid with
  | some o =>
    let fields2 : List (String × JSVal) :=
      if (o.fields.lookup (keyStr key)).isSome then
        o.fields.map (fun p => if p.1 = keyStr key then (p.1, val) else p)
      else o.fields ++ [(keyStr key, val)]
    { h with objs := updA h.objs oid { o with fields := fields2 } }
  | none => h

/-- `delete target[key]` on a record. -/
def removeField (oid : Nat) (key : JSVal) (h : Heap) : Heap :=
  match h.objs.lookup oid with
  | some o =>
    let o2 : JObj := { o with fields := o.fields.eraseP (fun p => p.1 == keyStr key) }
    { h with objs := updA h.objs oid o2 }
  | none => h

/-- `defineReactive(ob.value, key, val)` as invoked from `set` on an observed
record: allocate the field Dependency, store the field, observe the new
value (the accessor pair itself is modelled by `reactiveSetter`). -/
def defineReactiveAdd (fuel : Nat) (oid : Nat) (key val : JSVal) (h : Heap) : Heap :=
  (observe fuel val false (rawWrite oid key val { h with nextDep := h.nextDep + 1 })).2

/-- `set(target, key, val)`: array-with-valid-index goes through the
sanctioned splice path; an existing own key is a plain write; otherwise a
root-data or framework-instance target is rejected with a diagnostic; an
unobserved target gets a plain write; an observed one gets a new reactive
field and a root-Dependency notification. -/
def set (fuel : Nat) (target key val : JSVal) (h : Heap) : JSVal × Heap :=
  match target with
  | .ref oid =>
    match h.objs.lookup oid with
    | some o =>
      if o.kind = .arr ∧ isValidArrayIndex key then
        (val, wrappedSplice fuel oid ((keyToNat? key).getD 0) 1 [val]
          (setLength oid ((keyToNat? key).getD 0) h))
      else if hasOwnObj o key then
        (val, rawWrite oid key val h)
      else if o.isVue ∨ 0 < (match o.ob with | some k => vmCountOf h k | none => 0) then
        (val, warnH h)
      else
        match o.ob with
        | some k => (val, notifyObsDep k (defineReactiveAdd fuel oid key val h))
        | none => (val, rawWrite oid key val h)
    | none => (val, h)
  | _ => (val, h)

/-- `del(target, key)`: array-with-valid-index goes through the sanctioned
splice path; a root-data or framework-instance target is rejected with a
diagnostic; a missing key is a no-op; otherwise the key is deleted and, if
the target is observed, the root Dependency notified. -/
def del (fuel : Nat) (target key : JSVal) (h : Heap) : Heap :=
  match target with
  | .ref oid =>
    match h.objs.lookup oid with
    | some o =>
      if o.kind = .arr ∧ isValidArrayIndex key then
        wrappedSplice fuel oid ((keyToNat? key).getD 0) 1 [] h
      else if o.isVue ∨ 0 < (match o.ob with | some k => vmCountOf h k | none => 0) then
        warnH h
      else if hasOwnObj o key then
        match o.ob with
        | some k => notifyObsDep k (removeField oid key h)
        | none => removeField oid key h
      else h
    | none => h
  | _ => h


/-- C3: the reactive setter suppresses the write when the new value is
strictly equal to the current one, or when both values are NaN-like (each
unequal to itself): the stored value, the retained child Observer reference
and the notification count are all left unchanged. -/
theorem C3_setter_equality_suppression (obs : JSVal → Option Nat) (newVal : JSVal)
    (s : FieldState)
    (h : seq newVal s.val = true ∨ (seq newVal newVal = false ∧ seq s.val s.val = false)) :
    reactiveSetter obs newVal s = s := by
  rw [reactiveSetter, if_pos]
  rcases h with h | ⟨h1, h2⟩
  · simp [h]
  · simp [h1, h2]

theorem C3_setter_equality_suppression_witness :
    reactiveSetter (fun _ => none) .nan { val := .nan, childOb := some 3, notifies := 0 } =
        { val := .nan, childOb := some 3, notifies := 0 } ∧
      reactiveSetter (fun _ => none) (.num 4) { val := .num 4, childOb := none, notifies := 5 } =
        { val := .num 4, childOb := none, notifies := 5 } :=
  ⟨C3_setter_equality_suppression _ _ _ (Or.inr ⟨rfl, rfl⟩),
    C3_setter_equality_suppression _ _ _ (Or.inl rfl)⟩

/-- C4: `observe` on a value that already carries an Observer returns that
same Observer and leaves the heap unchanged (no new Observer is constructed),
so two successive calls return the same instance. -/
theorem C4_observe_idempotent (fuel : Nat) (h : Heap) (oid k : Nat) (o : JObj)
    (hlook : h.objs.lookup oid = some o) (hkind : o.kind ≠ .vnode) (hob : o.ob = some k) :
    observe (fuel + 1) (.ref oid) false h = (some k, h) ∧
      observe (fuel + 1) (.ref oid) false ((observe (fuel + 1) (.ref oid) false h).2) =
        (some k, h) := by
  have h1 : observe (fuel + 1) (.ref oid) false h = (some k, h) := by
    simp [observe, hlook, hkind, hob]
  exact ⟨h1, by rw [h1]; exact h1⟩

/-- An already-observed plain object. -/
def observedHeap : Heap :=
  { objs := [(0, { kind := .plain, extensible := true, isVue := false
                   fields := [("a", .num 1)], elems := [], ob := some 0 })]
    obss := [(0, { value := 0, depId := 0, vmCount := 0 })]
    nextObs := 1
    nextDep := 1
    notifyLog := []
    warnCount := 0
    shouldConvert := true
    ssr := false
    dev := true }

theorem C4_observe_idempotent_witness :
    observe 5 (.ref 0) false observedHeap = (some 0, observedHeap) ∧
      observe 5 (.ref 0) false ((observe 5 (.ref 0) false observedHeap).2) =
        (some 0, observedHeap) :=
  C4_observe_idempotent 4 observedHeap 0 0 _ rfl (by decide) rfl

/-- A frozen (non-extensible) plain object that nevertheless already carries
an Observer. -/
def frozenObservedHeap : Heap :=
  { objs := [(0, { kind := .plain, extensible := false, isVue := false
                   fields := [], elems := [], ob := some 0 })]
    obss := [(0, { value := 0, depId := 0, vmCount := 0 })]
    nextObs := 1
    nextDep := 1
    notifyLog := []
    warnCount := 0
    shouldConvert := true
    ssr := false
    dev := true }

/-- C8 counterexample: `observe` on a non-extensible value does NOT always
return nothing — the `__ob__` check precedes the extensibility guard, so a
frozen value that already carries an Observer returns that Observer. -/
theorem C8_counterexample_frozen_but_observed :
    ((frozenObservedHeap.objs.lookup 0).map JObj.extensible) = some false ∧
      (observe 5 (.ref 0) false frozenObservedHeap).1 = some 0 := by
  constructor
  · decide
  · decide

/-- C8 amended: `observe` returns nothing and leaves the heap untouched for
every non-object value and every VNode instance, and — provided the value
does not already carry an Observer — also for values that are neither plain
objects nor arrays, for non-extensible values, for framework instances
(`_isVue`), and when global conversion is disabled; none of these raises an
error (`observe` is total). -/
theorem C8_amended_observe_returns_nothing (fuel : Nat) (v : JSVal) (ar : Bool) (h : Heap)
    (hcase : (∀ oid, v ≠ .ref oid) ∨
      ∃ oid o, v = .ref oid ∧ h.objs.lookup oid = some o ∧
        (o.kind = .vnode ∨ (o.ob = none ∧
          (o.kind = .otherObj ∨ o.extensible = false ∨ o.isVue = true ∨
            h.shouldConvert = false)))) :
    observe (fuel + 1) v ar h = (none, h) := by
  rcases hcase with hnr | ⟨oid, o, rfl, hlook, hco⟩
  · cases v with
    | ref oid => exact absurd rfl (hnr oid)
    | undef => rfl
    | jsNull => rfl
    | bool b => rfl
    | num n => rfl
    | nan => rfl
    | str s => rfl
  · rcases hco with hvnode | ⟨hobn, hrest⟩
    · simp [observe, hlook, hvnode]
    · by_cases hkind : o.kind = .vnode
      · simp [observe, hlook, hkind]
      · have hguard : (h.shouldConvert && !h.ssr && (o.kind == .arr || o.kind == .plain) &&
            o.extensible && !o.isVue) = false := by
          rcases hrest with hk | he | hv | hsc
          · simp [hk]
          · simp [he]
          · simp [hv]
          · simp [hsc]
        simp [observe, hlook, hkind, hobn, hguard]

/-- A frozen plain object with no Observer. -/
def frozenHeap : Heap :=
  { objs := [(0, { kind := .plain, extensible := false, isVue := false
                   fields := [], elems := [], ob := none })]
    obss := []
    nextObs := 0
    nextDep := 0
    notifyLog := []
    warnCount := 0
    shouldConvert := true
    ssr := false
    dev := true }

theorem C8_amended_observe_returns_nothing_witness :
    observe 5 (.num 3) false frozenHeap = (none, frozenHeap) ∧
      observe 5 (.ref 0) false frozenHeap = (none, frozenHeap) := by
  constructor
  · exact C8_amended_observe_returns_nothing 4 (.num 3) false frozenHeap
      (Or.inl (fun oid hne => by cases hne))
  · exact C8_amended_observe_returns_nothing 4 (.ref 0) false frozenHeap
      (Or.inr ⟨0, _, rfl, rfl, Or.inr ⟨rfl, Or.inr (Or.inl rfl)⟩⟩)


lemma foldl_warnCount {α : Type} (f : Heap → α → Heap)
    (hf : ∀ hh e, (f hh e).warnCount = hh.warnCount) :
    ∀ (l : List α) (h : Heap), (l.foldl f h).warnCount = h.warnCount := by
  intro l
  induction l with
  | nil => intro h; rfl
  | cons a as ih =>
    intro h
    rw [List.foldl_cons, ih, hf]

lemma bumpVm_warnCount (k : Nat) (h : Heap) : (bumpVm k h).warnCount = h.warnCount := by
  rw [bumpVm]
  cases h.obss.lookup k <;> rfl

lemma observe_warnCount :
    ∀ (fuel : Nat) (v : JSVal) (ar : Bool) (h : Heap),
      ((observe fuel v ar h).2).warnCount = h.warnCount := by
  intro fuel
  induction fuel with
  | zero => intro v ar h; rfl
  | succ fuel ih =>
    intro v ar h
    cases v with
    | ref oid =>
      cases hlook : h.objs.lookup oid with
      | none => simp [observe, hlook]
      | some o =>
        by_cases hkind : o.kind = .vnode
        · simp [observe, hlook, hkind]
        · cases hob : o.ob with
          | some k =>
            cases ar with
            | true => simp [observe, hlook, hkind, hob, bumpVm_warnCount]
            | false => simp [observe, hlook, hkind, hob]
          | none =>
            by_cases hguard : (h.shouldConvert && !h.ssr &&
                (o.kind == .arr || o.kind == .plain) && o.extensible && !o.isVue) = true
            · have hnew : ∀ hh : Heap,
                  ((observeNew (fun v2 hh2 => (observe fuel v2 false hh2).2) oid o hh).2).warnCount =
                    hh.warnCount := by
                intro hh
                rw [observeNew]
                by_cases ha : o.kind = .arr
                · rw [if_pos ha]
                  exact foldl_warnCount _ (fun hh2 e => ih e false hh2) _ _
                · rw [if_neg ha]
                  exact foldl_warnCount
                    (fun (hh2 : Heap) (kv : String × JSVal) =>
                      (observe fuel kv.2 false { hh2 with nextDep := hh2.nextDep + 1 }).2)
                    (fun hh2 kv => ih kv.2 false { hh2 with nextDep := hh2.nextDep + 1 }) _ _
              cases ar with
              | true =>
                simp [observe, hlook, hkind, hob, hguard, bumpVm_warnCount, hnew]
              | false =>
                simp [observe, hlook, hkind, hob, hguard, hnew]
            · simp [observe, hlook, hkind, hob, hguard]
    | undef => rfl
    | jsNull => rfl
    | bool b => rfl
    | num n => rfl
    | nan => rfl
    | str s => rfl

lemma setLength_warnCount (oid n : Nat) (h : Heap) :
    (setLength oid n h).warnCount = h.warnCount := by
  rw [setLength]
  cases h.objs.lookup oid <;> rfl

lemma notifyObsDep_warnCount (k : Nat) (h : Heap) :
    (notifyObsDep k h).warnCount = h.warnCount := by
  rw [notifyObsDep]
  cases h.obss.lookup k <;> rfl

lemma wrappedSplice_warnCount (fuel oid start deleteCount : Nat) (inserted : List JSVal)
    (h : Heap) : (wrappedSplice fuel oid start deleteCount inserted h).warnCount = h.warnCount := by
  rw [wrappedSplice]
  cases hlook : h.objs.lookup oid with
  | none => rfl
  | some o =>
    have hfold : ∀ hh : Heap,
        ((inserted.foldl (fun hh2 e => (observe fuel e false hh2).2) hh)).warnCount =
          hh.warnCount :=
      fun hh => foldl_warnCount _ (fun hh2 e => observe_warnCount fuel e false hh2) _ _
    dsimp only
    cases hob : o.ob with
    | none => exact hfold _
    | some k =>
      rw [notifyObsDep_warnCount]
      exact hfold _

/-- C10: for an array target and a valid index key, `set` and `del` take the
splice-based structural path unconditionally — before the root-state check —
so no diagnostic is ever emitted and the mutation is never rejected, whatever
the Observer's `vmCount`. -/
theorem C10_array_index_ops_bypass_root_protection (fuel : Nat) (h : Heap) (oid i : Nat)
    (key val : JSVal) (o : JObj) (hlook : h.objs.lookup oid = some o)
    (hk : o.kind = .arr) (hkey : keyToNat? key = some i) :
    set fuel (.ref oid) key val h =
        (val, wrappedSplice fuel oid i 1 [val] (setLength oid i h)) ∧
      (set fuel (.ref oid) key val h).2.warnCount = h.warnCount ∧
      del fuel (.ref oid) key h = wrappedSplice fuel oid i 1 [] h ∧
      (del fuel (.ref oid) key h).warnCount = h.warnCount := by
  have hvalid : isValidArrayIndex key = true := by simp [isValidArrayIndex, hkey]
  have hgetd : (keyToNat? key).getD 0 = i := by simp [hkey]
  have h1 : set fuel (.ref oid) key val h =
      (val, wrappedSplice fuel oid i 1 [val] (setLength oid i h)) := by
    simp [set, hlook, hk, hvalid, hgetd]
  have h2 : del fuel (.ref oid) key h = wrappedSplice fuel oid i 1 [] h := by
    simp [del, hlook, hk, hvalid, hgetd]
  refine ⟨h1, ?_, h2, ?_⟩
  · rw [h1]
    exact (wrappedSplice_warnCount _ _ _ _ _ _).trans (setLength_warnCount _ _ _)
  · rw [h2]
    exact wrappedSplice_warnCount _ _ _ _ _ _

/-- A root array (its Observer has vmCount = 1) holding one element. -/
def rootArrayHeap : Heap :=
  { objs := [(0, { kind := .arr, extensible := true, isVue := false
                   fields := [], elems := [.num 7], ob := some 0 })]
    obss := [(0, { value := 0, depId := 0, vmCount := 1 })]
    nextObs := 1
    nextDep := 1
    notifyLog := []
    warnCount := 0
    shouldConvert := true
    ssr := false
    dev := true }

theorem C10_array_index_ops_bypass_root_protection_witness :
    vmCountOf rootArrayHeap 0 = 1 ∧
      (set 3 (.ref 0) (.num 0) (.num 9) rootArrayHeap).2.warnCount = 0 ∧
      (del 3 (.ref 0) (.num 0) rootArrayHeap).warnCount = 0 := by
  have hthm := C10_array_index_ops_bypass_root_protection 3 rootArrayHeap 0 0
    (.num 0) (.num 9) _ rfl rfl rfl
  exact ⟨by decide, hthm.2.1.trans (by decide), hthm.2.2.2.trans (by decide)⟩

/-- C5 counterexample: on a root array (vmCount = 1), `set` with a
beyond-bounds valid index — a key that is not an existing own key — does NOT
warn and DOES mutate: the splice path precedes the root check. -/
theorem C5_counterexample_root_array_new_index :
    vmCountOf rootArrayHeap 0 = 1 ∧
      ((rootArrayHeap.objs.lookup 0).map (fun o => hasOwnObj o (.num 5))) = some false ∧
      (set 3 (.ref 0) (.num 5) (.str "x") rootArrayHeap).2.warnCount = 0 ∧
      ((set 3 (.ref 0) (.num 5) (.str "x") rootArrayHeap).2.objs.lookup 0).map JObj.elems =
        some [.num 7, .undef, .undef, .undef, .undef, .str "x"] := by
  refine ⟨by decide, by decide, by decide, by decide⟩

/-- C5 amended: for every root-state target (Observer vmCount > 0) and every
operation that is not an array-index operation, adding a key that is not an
existing own key via `set` emits the dev diagnostic, performs no mutation and
returns `val`; and `del` — for any key, an existing own key included, since
the root check precedes the own-key check — emits the same diagnostic and
performs no deletion or notification (array targets with valid index keys
instead take the splice path of C10). -/
theorem C5_amended_root_protection (fuel : Nat) (h : Heap) (oid k : Nat) (key val : JSVal)
    (o : JObj) (hlook : h.objs.lookup oid = some o)
    (harr : ¬(o.kind = .arr ∧ isValidArrayIndex key = true))
    (hob : o.ob = some k) (hvm : 0 < vmCountOf h k) (hdev : h.dev = true) :
    (hasOwnObj o key = false →
        set fuel (.ref oid) key val h = (val, { h with warnCount := h.warnCount + 1 })) ∧
      del fuel (.ref oid) key h = { h with warnCount := h.warnCount + 1 } := by
  have hcond : (o.isVue ∨ 0 < (match o.ob with | some k2 => vmCountOf h k2 | none => 0)) := by
    rw [hob]
    exact Or.inr hvm
  constructor
  · intro hown
    simp [set, hlook, harr, hown, hcond, warnH, hdev]
  · simp [del, hlook, harr, hcond, warnH, hdev]

/-- A plain root object (vmCount = 1) with one declared field. -/
def rootObjHeap : Heap :=
  { objs := [(0, { kind := .plain, extensible := true, isVue := false
                   fields := [("a", .num 1)], elems := [], ob := some 0 })]
    obss := [(0, { value := 0, depId := 0, vmCount := 1 })]
    nextObs := 1
    nextDep := 1
    notifyLog := []
    warnCount := 0
    shouldConvert := true
    ssr := false
    dev := true }

theorem C5_amended_root_protection_witness :
    set 3 (.ref 0) (.str "b") (.num 2) rootObjHeap =
        (.num 2, { rootObjHeap with warnCount := 1 }) ∧
      del 3 (.ref 0) (.str "a") rootObjHeap = { rootObjHeap with warnCount := 1 } ∧
      ((del 3 (.ref 0) (.str "a") rootObjHeap).objs.lookup 0).map JObj.fields =
        some [("a", .num 1)] := by
  have hb := C5_amended_root_protection 3 rootObjHeap 0 0 (.str "b") (.num 2) _ rfl
    (by decide) rfl (by decide) rfl
  have ha := C5_amended_root_protection 3 rootObjHeap 0 0 (.str "a") (.num 2) _ rfl
    (by decide) rfl (by decide) rfl
  refine ⟨hb.1 (by decide), ha.2, ?_⟩
  rw [ha.2]
  decide

end VueCore
